import Mathlib

/-!
Verification of the SHOT hyperplane-generation and lazy-constraint callback
loop.  The definitions below are a shallow embedding of the C++ sources:

* `TaskSelectHyperplanePointsSolution.cpp` (ECP point selector),
* `MIPSolverGurobiLazy.cpp` (the Gurobi lazy-constraint callback),
* `MIPSolver/MIPSolverCbc.cpp` (the Cbc backend).

Doubles are modelled by `ℚ` (with a dedicated `FP` type where the code
tests for NaN), external collaborators (problem model, settings, native
solver) become explicit parameters, and stateful code becomes explicit
state passing.  Each definition cites the function it embeds.
-/

namespace SHOT

/-- `E_HyperplaneSource` tags used by `TaskSelectHyperplanePointsSolution::run`. -/
inductive E_HyperplaneSource where
  | MIPOptimalSolutionPoint
  | MIPSolutionPoolSolutionPoint
  | LPRelaxedSolutionPoint
  deriving DecidableEq, Repr

/-- `PairIndexValue`: a constraint index together with a (normalized) value. -/
structure PairIndexValue where
  idx : Int
  value : ℚ
  deriving DecidableEq, Repr

/-- `SolutionPoint`: coordinates, objective value, iteration found,
maximum constraint deviation. -/
structure SolutionPoint where
  point : List ℚ
  objectiveValue : ℚ
  iterFound : Nat
  maxDeviation : PairIndexValue
  deriving DecidableEq, Repr

/-- `Hyperplane`: a (source constraint, generation point, source tag) triple
as enqueued on the hyperplane waiting list. -/
structure Hyperplane where
  sourceConstraintIndex : Int
  generatedPoint : List ℚ
  source : E_HyperplaneSource
  deriving DecidableEq, Repr

/-! ## ECP point selector (`TaskSelectHyperplanePointsSolution::run`) -/

/-- Source tag chosen in the body of the inner loop of
`TaskSelectHyperplanePointsSolution::run`: it depends on the position `i`
of the solution point and on `currIter->isMILP()`. -/
def hyperplaneSourceTag (i : Nat) (isMILP : Bool) : E_HyperplaneSource :=
  if i = 0 ∧ isMILP then E_HyperplaneSource.MIPOptimalSolutionPoint
  else if isMILP then E_HyperplaneSource.MIPSolutionPoolSolutionPoint
  else E_HyperplaneSource.LPRelaxedSolutionPoint

/-- Inner loop of `TaskSelectHyperplanePointsSolution::run` over the most
deviating constraints of one solution point.  Returns the hyperplanes pushed
onto the waiting list, the updated `addedHyperplanes` counter, and whether
the `return` statement (cap reached) fired.  `maxHyperplanes` is the integer
setting `MaxHyperplanesPerIteration`; the cap test `addedHyperplanes >= max`
appears before the interiority test, exactly as in the source. -/
def selectFromConstraints (maxHyperplanes : Int) (src : E_HyperplaneSource)
    (pt : List ℚ) : List PairIndexValue → Int → List Hyperplane × Int × Bool
  | [], added => ([], added, false)
  | c :: cs, added =>
    if maxHyperplanes ≤ added then ([], added, true)
    else if c.value < 0 then
      -- "LP point is in the interior!": warning only, nothing enqueued
      selectFromConstraints maxHyperplanes src pt cs added
    else
      let rest := selectFromConstraints maxHyperplanes src pt cs (added + 1)
      (⟨c.idx, pt, src⟩ :: rest.1, rest.2)

/-- Outer loop of `TaskSelectHyperplanePointsSolution::run` over the solution
points.  `mostDeviatingConstraints` stands for the external call
`originalProblem->getMostDeviatingConstraints(point, constrSelFactor)`
(the selection factor is folded into the function).  A `true` early-return
flag from the inner loop stops the whole enumeration. -/
def selectFromPoints (maxHyperplanes : Int) (isMILP : Bool)
    (mostDeviatingConstraints : List ℚ → List PairIndexValue) :
    List SolutionPoint → Nat → Int → List Hyperplane
  | [], _, _ => []
  | p :: ps, i, added =>
    let r := selectFromConstraints maxHyperplanes (hyperplaneSourceTag i isMILP)
      p.point (mostDeviatingConstraints p.point) added
    if r.2.2 then r.1
    else r.1 ++ selectFromPoints maxHyperplanes isMILP mostDeviatingConstraints ps (i + 1) r.2.1

/-- `TaskSelectHyperplanePointsSolution::run(vector<SolutionPoint> solPoints)`:
the list of hyperplanes the invocation pushes onto
`ProcessInfo::getInstance().hyperplaneWaitingList`, starting from
`addedHyperplanes = 0` and point index `i = 0`. -/
def TaskSelectHyperplanePointsSolution_run (maxHyperplanes : Int) (isMILP : Bool)
    (mostDeviatingConstraints : List ℚ → List PairIndexValue)
    (solPoints : List SolutionPoint) : List Hyperplane :=
  selectFromPoints maxHyperplanes isMILP mostDeviatingConstraints solPoints 0 0

/-! ## Shared enumerations for the Gurobi lazy callback
(`MIPSolverGurobiLazy.cpp`) -/

/-- The `where` codes the callback branches on.  Only the ones the code
names are modelled. -/
inductive GRBWhere where
  | polling
  | presolve
  | simplex
  | message
  | barrier
  | mip
  | mipsol
  | mipnode
  deriving DecidableEq, Repr

/-- `ES_HyperplaneCutStrategy` (the `CutStrategy`/`Dual` setting). -/
inductive ES_HyperplaneCutStrategy where
  | ESH
  | ECP
  deriving DecidableEq, Repr

/-- `E_ObjectiveFunctionClassification`, in the declaration order the C++
enum comparisons rely on. -/
inductive E_ObjectiveFunctionClassification where
  | NoObjective
  | Linear
  | Quadratic
  | QuadraticConsideredAsNonlinear
  | Signomial
  | Nonlinear
  deriving DecidableEq, Repr

/-- Underlying integer value of the C++ enum, used for its `<`, `>` and `>=`
comparisons. -/
def E_ObjectiveFunctionClassification.rank : E_ObjectiveFunctionClassification → Nat
  | E_ObjectiveFunctionClassification.NoObjective => 0
  | E_ObjectiveFunctionClassification.Linear => 1
  | E_ObjectiveFunctionClassification.Quadratic => 2
  | E_ObjectiveFunctionClassification.QuadraticConsideredAsNonlinear => 3
  | E_ObjectiveFunctionClassification.Signomial => 4
  | E_ObjectiveFunctionClassification.Nonlinear => 5

/-- Observable side effects of one callback invocation, in program order:
task invocations, cut insertions, solution injection, cutoff updates. -/
inductive CBAction where
  | updateInteriorPoint
  | selectHyperplanePointsESH (pts : List SolutionPoint)
  | selectHyperplanePointsECP (pts : List SolutionPoint)
  | selectHPPtsByObjectiveLinesearch (pts : List SolutionPoint)
  | createHyperplaneCall (hp : Hyperplane)
  | primalLinesearch (pts : List SolutionPoint)
  | fixedNLPCall
  | integerCutCall (cut : List Int)
  | abortSearch
  | setSolutionCall (values : List ℚ)
  | setSolutionAux (value : ℚ)
  | setCutoff (value : ℚ)
  deriving DecidableEq, Repr

/-- An action that inserts a cut into the active MILP search:
`createHyperplane` performs the `addLazy` call. -/
def CBAction.isCutInjection : CBAction → Bool
  | CBAction.createHyperplaneCall _ => true
  | _ => false

/-- Static data of one `GurobiCallback` object: the cut strategy and
objective classification (read from settings / the reformulated problem in
the constructor), and the effect of the external point-selection tasks on
the hyperplane waiting list (`taskSelectHPPts->run` and
`taskSelectHPPtsByObjectiveLinesearch->run` append hyperplanes to it). -/
structure CallbackEnv where
  strategy : ES_HyperplaneCutStrategy
  classification : E_ObjectiveFunctionClassification
  selectorAppends : List SolutionPoint → List Hyperplane
  objLinesearchAppends : List SolutionPoint → List Hyperplane

/-- `GurobiCallback::addLazyConstraint(candidatePoints)`: runs the selector
tasks for the configured strategy (plus the objective-linesearch pass when
the classification is strictly above `Quadratic`), then flushes the
hyperplane waiting list through `createHyperplane` and clears it.  Returns
the action trace and the new waiting list.  The `cbCalls` and
`lastNumAddedHyperplanes` counters are bookkeeping only and omitted. -/
def GurobiCallback_addLazyConstraint (env : CallbackEnv) (waiting : List Hyperplane)
    (candidatePoints : List SolutionPoint) : List CBAction × List Hyperplane :=
  let sel :=
    match env.strategy with
    | ES_HyperplaneCutStrategy.ESH =>
      if E_ObjectiveFunctionClassification.Quadratic.rank < env.classification.rank then
        ([CBAction.updateInteriorPoint, CBAction.selectHyperplanePointsESH candidatePoints,
            CBAction.selectHPPtsByObjectiveLinesearch candidatePoints],
          (waiting ++ env.selectorAppends candidatePoints) ++ env.objLinesearchAppends candidatePoints)
      else
        ([CBAction.updateInteriorPoint, CBAction.selectHyperplanePointsESH candidatePoints],
          waiting ++ env.selectorAppends candidatePoints)
    | ES_HyperplaneCutStrategy.ECP =>
      if E_ObjectiveFunctionClassification.Quadratic.rank < env.classification.rank then
        ([CBAction.selectHyperplanePointsECP candidatePoints,
            CBAction.selectHPPtsByObjectiveLinesearch candidatePoints],
          (waiting ++ env.selectorAppends candidatePoints) ++ env.objLinesearchAppends candidatePoints)
      else
        ([CBAction.selectHyperplanePointsECP candidatePoints],
          waiting ++ env.selectorAppends candidatePoints)
  (sel.1 ++ sel.2.map CBAction.createHyperplaneCall, [])

/-- Inputs of the cut-generating `GRB_CB_MIPSOL` block of
`GurobiCallback::callback` that come from the solver, the settings and the
(external) problem model. -/
structure MipsolEvent where
  numberOfNonlinearConstraints : Nat
  maxDevIndex : Int
  maxDevValue : ℚ
  constraintTolerance : ℚ
  mipsolObj : ℚ
  solution : List ℚ
  iterationNumber : Nat
  useLinesearchSetting : Bool
  useIntegerCutsSetting : Bool
  integerCutWaitingList : List (List Int)
  fixedNLPCheck : Bool
  gapToleranceMet : Bool

/-- The cut-generating `GRB_CB_MIPSOL` block of `GurobiCallback::callback`
(the block computing `solutionCandidate` and calling `addLazyConstraint`).
When the reformulated problem has nonlinear constraints and the candidate's
maximum normalized deviation is within `ConstraintTolerance`, the block
returns early: the point is accepted and nothing else happens.  Otherwise
`addLazyConstraint` runs, followed by the optional primal linesearch, the
fixed-NLP candidate step, the integer-cut flush and the gap-tolerance
abort.  Iteration statistics bookkeeping is omitted.  Returns the action
trace, the hyperplane waiting list and the integer-cut waiting list. -/
def GurobiCallback_mipsolCutBlock (env : CallbackEnv) (e : MipsolEvent)
    (waiting : List Hyperplane) : List CBAction × List Hyperplane × List (List Int) :=
  if 0 < e.numberOfNonlinearConstraints ∧ e.maxDevValue ≤ e.constraintTolerance then
    ([], waiting, e.integerCutWaitingList)
  else
    let solutionCandidate : SolutionPoint :=
      { point := e.solution, objectiveValue := e.mipsolObj, iterFound := e.iterationNumber,
        maxDeviation :=
          if 0 < e.numberOfNonlinearConstraints then ⟨e.maxDevIndex, e.maxDevValue⟩
          else ⟨0, 0⟩ }
    let lazy := GurobiCallback_addLazyConstraint env waiting [solutionCandidate]
    let acts := lazy.1
      ++ (if e.useLinesearchSetting ∧ 0 < e.numberOfNonlinearConstraints then
            [CBAction.primalLinesearch [solutionCandidate]] else [])
      ++ (if e.fixedNLPCheck then [CBAction.fixedNLPCall] else [])
      ++ (if e.useIntegerCutsSetting then e.integerCutWaitingList.map CBAction.integerCutCall else [])
      ++ (if e.gapToleranceMet then [CBAction.abortSearch] else [])
    (acts, lazy.2, if e.useIntegerCutsSetting then [] else e.integerCutWaitingList)

/-! ## `GurobiCallback::createHyperplane` (NaN handling and the ledger) -/

/-- A double that is either an ordinary value or NaN; `ℚ` has no NaN, so the
IEEE behaviour the code relies on is made explicit. -/
inductive FP where
  | num (q : ℚ)
  | nan
  deriving DecidableEq, Repr

/-- The IEEE self-comparison `E.value != E.value`, true exactly for NaN. -/
def FP.selfNe : FP → Bool
  | FP.nan => true
  | FP.num _ => false

/-- A linear term of a hyperplane as produced by `createHyperplaneTerms`:
variable index and coefficient. -/
structure FPTerm where
  index : Nat
  value : FP
  deriving DecidableEq, Repr

/-- `GeneratedHyperplane` ledger entry. -/
structure GeneratedHyperplane where
  generatedConstraintIndex : Int
  sourceConstraintIndex : Int
  generatedPoint : List ℚ
  source : E_HyperplaneSource
  generatedIter : Nat
  isLazy : Bool
  isRemoved : Bool
  deriving DecidableEq, Repr

/-- The NaN scan loop of `GurobiCallback::createHyperplane`: sets
`hyperplaneIsOk = false` and breaks at the first term with
`E.value != E.value`. -/
def termsOkLoop : List FPTerm → Bool
  | [] => true
  | t :: ts => if t.value.selfNe then false else termsOkLoop ts

/-- Observable outcome of one `GurobiCallback::createHyperplane` call:
the `addLazy` cut insertions performed, the entries appended to the
`generatedHyperplanes` ledger, the `GeneratedHyperplane` value built
locally, and the increment of the iteration hyperplane counters. -/
structure CreateHyperplaneResult where
  addLazyCalls : List (List FPTerm × FP)
  ledgerAppends : List GeneratedHyperplane
  builtEntry : Option GeneratedHyperplane
  numHyperplanesAddedDelta : Nat
  deriving DecidableEq, Repr

/-- `GurobiCallback::createHyperplane(hyperplane)`.  The argument
`createHyperplaneTerms` is the result of the external call
`MIPSolver->createHyperplaneTerms(hyperplane)` (`none` when the boost
optional is empty).  On a NaN coefficient the whole hyperplane is dropped;
on success `addLazy(expr <= -tmpPair.second)` is issued and a
`GeneratedHyperplane` is built with `constrIndex = 0`, but the push onto
`generatedHyperplanes` is commented out in the source, so the ledger is
never appended to. -/
def GurobiCallback_createHyperplane (currIterNumber : Nat)
    (createHyperplaneTerms : Option (List FPTerm × FP)) (hyperplane : Hyperplane) :
    CreateHyperplaneResult :=
  match createHyperplaneTerms with
  | Option.none => ⟨[], [], Option.none, 0⟩
  | Option.some tmpPair =>
    if termsOkLoop tmpPair.1 then
      let genHyperplane : GeneratedHyperplane :=
        { generatedConstraintIndex := 0
          sourceConstraintIndex := hyperplane.sourceConstraintIndex
          generatedPoint := hyperplane.generatedPoint
          source := hyperplane.source
          generatedIter := currIterNumber
          isLazy := false
          isRemoved := false }
      ⟨[(tmpPair.1, tmpPair.2)], [], Option.some genHyperplane, 1⟩
    else ⟨[], [], Option.none, 0⟩

/-! ## The `GRB_CB_MIPNODE` block of `GurobiCallback::callback` -/

/-- Gurobi's `GRB_OPTIMAL` status code. -/
def GRB_OPTIMAL : Int := 2

/-- Inputs of the `GRB_CB_MIPNODE` block. -/
structure MipnodeEvent where
  mipnodeStatus : Int
  relaxedLazyHyperplanesAdded : Int
  maxLazyConstraintsSetting : Int
  nodeSolution : List ℚ
  numberOfNonlinearConstraints : Nat
  maxDevIndex : Int
  maxDevValue : ℚ
  objectiveValue : ℚ
  iterationNumber : Nat

/-- The relaxation solution point (`tmpSolPt`) the `GRB_CB_MIPNODE` block
builds from the node solution. -/
def mipnodeSolutionPoint (e : MipnodeEvent) : SolutionPoint :=
  { point := e.nodeSolution, objectiveValue := e.objectiveValue,
    iterFound := e.iterationNumber,
    maxDeviation :=
      if 0 < e.numberOfNonlinearConstraints then ⟨e.maxDevIndex, e.maxDevValue⟩
      else ⟨0, 0⟩ }

/-- The `GRB_CB_MIPNODE` block of `GurobiCallback::callback`: when the node
relaxation is `GRB_OPTIMAL` and the count of relaxation cuts is below the
`Relaxation.MaxLazyConstraints` setting, it builds the relaxation solution
point, runs the configured point selector on it (appending to the
hyperplane waiting list), and increases `relaxedLazyHyperplanesAdded` by
the growth of the waiting list.  No `createHyperplane`/`addLazy` call
appears in this block.  Returns the action trace, the waiting list and the
new `relaxedLazyHyperplanesAdded`. -/
def GurobiCallback_mipnodeBlock (env : CallbackEnv) (e : MipnodeEvent)
    (waiting : List Hyperplane) : List CBAction × List Hyperplane × Int :=
  if e.mipnodeStatus = GRB_OPTIMAL
      ∧ e.relaxedLazyHyperplanesAdded < e.maxLazyConstraintsSetting then
    let solutionPoints := [mipnodeSolutionPoint e]
    let act :=
      match env.strategy with
      | ES_HyperplaneCutStrategy.ESH => CBAction.selectHyperplanePointsESH solutionPoints
      | ES_HyperplaneCutStrategy.ECP => CBAction.selectHyperplanePointsECP solutionPoints
    let newWaiting := waiting ++ env.selectorAppends solutionPoints
    ([act], newWaiting,
      e.relaxedLazyHyperplanesAdded + ((newWaiting.length : Int) - (waiting.length : Int)))
  else ([], waiting, e.relaxedLazyHyperplanesAdded)

/-! ## Primal/dual bound bookkeeping of the callback -/

/-- The process-wide best-known bounds (`Results::getDualBound` /
`getPrimalBound`). -/
structure BoundLedger where
  dualBound : ℚ
  primalBound : ℚ
  deriving DecidableEq, Repr

/-- The literal `1e100` from the primal-bound guard. -/
def huge1e100 : ℚ := 10 ^ 100

/-- Per-event solver data the bound blocks of `GurobiCallback::callback`
read: the `where` code, the three `OBJBND` infos, `GRB_CB_MIPSOL_OBJ`, and
the objective value the problem model recomputes at the solution
(`objectiveFunction->calculateValue(primalSolution)`). -/
structure CallbackEvent where
  whereCode : GRBWhere
  mipObjBnd : ℚ
  mipsolObjBnd : ℚ
  mipnodeObjBnd : ℚ
  mipsolObj : ℚ
  calculatedObjectiveValue : ℚ
  deriving DecidableEq, Repr

/-- The `switch(where)` selecting `tmpDualObjBound`.  The `default` case is
unreachable because the enclosing `if` restricts `where` to the three codes. -/
def dualBoundInfo (e : CallbackEvent) : ℚ :=
  match e.whereCode with
  | GRBWhere.mip => e.mipObjBnd
  | GRBWhere.mipsol => e.mipsolObjBnd
  | GRBWhere.mipnode => e.mipnodeObjBnd
  | _ => 0

/-- The dual-bound guard of `GurobiCallback::callback` (lines computing
`tmpDualObjBound` and testing it against `getDualBound()`): a dual solution
candidate is submitted exactly when this returns `true`. -/
def dualSubmits (isMinimization : Bool) (dualBound : ℚ) (e : CallbackEvent) : Bool :=
  (e.whereCode == GRBWhere.mip || e.whereCode == GRBWhere.mipsol
      || e.whereCode == GRBWhere.mipnode)
    && ((isMinimization && decide (dualBound < dualBoundInfo e))
      || (!isMinimization && decide (dualBoundInfo e < dualBound)))

/-- The primal-bound guard of the first `GRB_CB_MIPSOL` block: a primal
solution candidate is submitted exactly when this returns `true`. -/
def primalSubmits (isMinimization : Bool) (primalBound : ℚ) (e : CallbackEvent) : Bool :=
  (e.whereCode == GRBWhere.mipsol)
    && decide (e.mipsolObj < huge1e100)
    && ((isMinimization && decide (e.mipsolObj < primalBound))
      || (!isMinimization && decide (primalBound < e.mipsolObj)))

/-- Modelled from the spec: `DualSolver::addDualSolutionCandidate` is not
under `src/`; per the spec's Bound Ledger contract it accepts a candidate
and updates the best-known dual bound only if it improves strictly in the
optimization direction; ties do not update. -/
def addDualSolutionCandidate (isMinimization : Bool) (ledger : BoundLedger)
    (bound : ℚ) : BoundLedger :=
  if (isMinimization && decide (ledger.dualBound < bound))
      || (!isMinimization && decide (bound < ledger.dualBound)) then
    { ledger with dualBound := bound }
  else ledger

/-- Modelled from the spec: `PrimalSolver::addPrimalSolutionCandidate` is
not under `src/`; per the spec's Bound Ledger contract it accepts a
candidate point and updates the best-known primal bound only if its
objective improves strictly in the optimization direction; ties do not
update. -/
def addPrimalSolutionCandidate (isMinimization : Bool) (ledger : BoundLedger)
    (objectiveValue : ℚ) : BoundLedger :=
  if (isMinimization && decide (objectiveValue < ledger.primalBound))
      || (!isMinimization && decide (ledger.primalBound < objectiveValue)) then
    { ledger with primalBound := objectiveValue }
  else ledger

/-- The bound-bookkeeping portion of one `GurobiCallback::callback`
invocation: the dual-bound block followed by the primal-bound block, each
submitting a candidate to the (spec-modelled) ledger only when its guard
passes. -/
def callbackBoundStep (isMinimization : Bool) (ledger : BoundLedger)
    (e : CallbackEvent) : BoundLedger :=
  let ledger1 :=
    if dualSubmits isMinimization ledger.dualBound e then
      addDualSolutionCandidate isMinimization ledger (dualBoundInfo e)
    else ledger
  if primalSubmits isMinimization ledger1.primalBound e then
    addPrimalSolutionCandidate isMinimization ledger1 e.calculatedObjectiveValue
  else ledger1

/-- The bounds after a sequence of callback events. -/
def callbackBoundSteps (isMinimization : Bool) (ledger : BoundLedger)
    (es : List CallbackEvent) : BoundLedger :=
  es.foldl (callbackBoundStep isMinimization) ledger

/-- Direction-relative non-regression of the recorded bounds: for a
minimization problem the dual bound may only go up and the primal bound may
only come down, and conversely for maximization. -/
def boundsNoRegress (isMinimization : Bool) (before after : BoundLedger) : Prop :=
  if isMinimization then
    before.dualBound ≤ after.dualBound ∧ after.primalBound ≤ before.primalBound
  else
    after.dualBound ≤ before.dualBound ∧ before.primalBound ≤ after.primalBound

/-! ## The incumbent re-injection block of `GurobiCallback::callback` -/

/-- The final `GRB_CB_MIPSOL` block: re-inject the stored primal solution
via `setSolution` when the guard passes, then set the cutoff.  The guard is
translated literally: for maximization it reads
`primalBound > primalBound`.  Returns the action trace and the new
`lastUpdatedPrimal`. -/
def GurobiCallback_mipsolIncumbentBlock (isMinimization : Bool)
    (lastUpdatedPrimal primalBound : ℚ) (primalSolutionStored : List ℚ)
    (hasAuxObjectiveVariable : Bool) (cutOffTol : ℚ) : List CBAction × ℚ :=
  let guard := (isMinimization && decide (lastUpdatedPrimal < primalBound))
    || (!isMinimization && decide (primalBound < primalBound))
  let injected :=
    if guard then
      ([CBAction.setSolutionCall primalSolutionStored]
          ++ (if hasAuxObjectiveVariable then [CBAction.setSolutionAux primalBound] else []),
        primalBound)
    else ([], lastUpdatedPrimal)
  (injected.1
      ++ [if isMinimization then CBAction.setCutoff (primalBound + cutOffTol)
          else CBAction.setCutoff (-primalBound - cutOffTol)],
    injected.2)

/-! ## `MIPSolverCbc` (variable bounds) -/

inductive E_VariableType where
  | Real
  | Integer
  | Binary
  | Semicontinuous
  deriving DecidableEq, Repr

/-- `MIPSolverCbc::getUnboundedVariableBoundValue()` returns `1e+50`. -/
def getUnboundedVariableBoundValue : ℚ := 10 ^ 50

/-- The bookkeeping vectors of `MIPSolverCbc` touched by `addVariable`. -/
structure CbcState where
  variableTypes : List E_VariableType
  variableNames : List String
  variableLowerBounds : List ℚ
  variableUpperBounds : List ℚ
  deriving DecidableEq, Repr

/-- State after `MIPSolverCbc::initializeProblem`. -/
def initialCbcState : CbcState := ⟨[], [], [], []⟩

/-- `MIPSolverCbc::addVariable(name, type, lowerBound, upperBound)`: the
lower bound is raised to `-getUnboundedVariableBoundValue()` when below it,
the upper bound lowered to `getUnboundedVariableBoundValue()` when above
it, then the bounds are recorded.  The Coin model calls are external and
their exceptions are the only failure path, so the model covers the
successful return. -/
def MIPSolverCbc_addVariable (st : CbcState) (name : String) (ty : E_VariableType)
    (lowerBound upperBound : ℚ) : CbcState :=
  let lowerBound :=
    if lowerBound < -getUnboundedVariableBoundValue then -getUnboundedVariableBoundValue
    else lowerBound
  let upperBound :=
    if getUnboundedVariableBoundValue < upperBound then getUnboundedVariableBoundValue
    else upperBound
  { variableTypes := st.variableTypes ++ [ty]
    variableNames := st.variableNames ++ [name]
    variableLowerBounds := st.variableLowerBounds ++ [lowerBound]
    variableUpperBounds := st.variableUpperBounds ++ [upperBound] }

/-- A sequence of `addVariable` calls. -/
def MIPSolverCbc_addVariables (st : CbcState)
    (calls : List (String × E_VariableType × ℚ × ℚ)) : CbcState :=
  calls.foldl (fun s c => MIPSolverCbc_addVariable s c.1 c.2.1 c.2.2.1 c.2.2.2) st

/-! ## `MIPSolverCbc::solveProblem` unbounded-retry phase -/

inductive E_ProblemSolutionStatus where
  | Optimal
  | Feasible
  | Infeasible
  | Unbounded
  | TimeLimit
  | IterationLimit
  | SolutionLimit
  | Abort
  | CutOff
  | NumericIssues
  | Error
  deriving DecidableEq, Repr

/-- A variable of the reformulated problem as the retry loops see it:
`V->index`, `V->lowerBound`, `V->upperBound`, `V->isDualUnbounded()`. -/
structure ReformulatedVariable where
  index : Int
  lowerBound : ℚ
  upperBound : ℚ
  isDualUnbounded : Bool
  deriving DecidableEq, Repr

/-- `MIPSolverCbc::updateVariableBound`: a no-op when the current bounds
already equal the requested ones, otherwise `setColBounds` on the column.
The column bounds are modelled as a map from index to (lower, upper). -/
def updateVariableBound (bounds : Int → ℚ × ℚ) (varIndex : Int)
    (lowerBound upperBound : ℚ) : Int → ℚ × ℚ :=
  if bounds varIndex = (lowerBound, upperBound) then bounds
  else fun j => if j = varIndex then (lowerBound, upperBound) else bounds j

/-- The literal `10e30` appearing in the retry (equal to `10^31`). -/
def literal10e30 : ℚ := 10 ^ 31

/-- The tightening loop of the unbounded retry: every dual-unbounded
variable gets bounds `±(getUnboundedVariableBoundValue() / 10e30)`; the
flag records whether any variable was updated. -/
def tightenDualUnbounded :
    List ReformulatedVariable → (Int → ℚ × ℚ) → Bool → (Int → ℚ × ℚ) × Bool
  | [], bounds, updated => (bounds, updated)
  | V :: vs, bounds, updated =>
    if V.isDualUnbounded then
      tightenDualUnbounded vs
        (updateVariableBound bounds V.index
          (-(getUnboundedVariableBoundValue / literal10e30))
          (getUnboundedVariableBoundValue / literal10e30)) true
    else tightenDualUnbounded vs bounds updated

/-- The restore loop after the re-solve: every dual-unbounded variable of
`allVariables` gets its problem bounds back. -/
def restoreDualUnbounded :
    List ReformulatedVariable → (Int → ℚ × ℚ) → Int → ℚ × ℚ
  | [], bounds => bounds
  | V :: vs, bounds =>
    if V.isDualUnbounded then
      restoreDualUnbounded vs (updateVariableBound bounds V.index V.lowerBound V.upperBound)
    else restoreDualUnbounded vs bounds

/-- Environment of the unbounded retry: objective classification,
`isDualUnbounded()` of the (linear/quadratic) objective, the reformulated
problem's variables, the auxiliary dual objective variable's column index,
and the status the single re-solve returns. -/
structure UnboundedRetryEnv where
  classification : E_ObjectiveFunctionClassification
  objectiveIsDualUnbounded : Bool
  allVariables : List ReformulatedVariable
  dualAuxiliaryObjectiveVariableIndex : Int
  resolveStatus : E_ProblemSolutionStatus

/-- The `if(MIPSolutionStatus == E_ProblemSolutionStatus::Unbounded)` block
at the end of `MIPSolverCbc::solveProblem`: tighten the dual-unbounded
variables (linear/quadratic dual-unbounded objective) or the auxiliary
objective variable (classification at least
`QuadraticConsideredAsNonlinear`); when anything was tightened, re-solve
once and then run the restore loop over `allVariables`.  Returns the final
status, the final column bounds and the
`hasInfeasibilityRepairBeenPerformed` flag. -/
def MIPSolverCbc_unboundedRetry (env : UnboundedRetryEnv)
    (status : E_ProblemSolutionStatus) (bounds : Int → ℚ × ℚ) :
    E_ProblemSolutionStatus × (Int → ℚ × ℚ) × Bool :=
  if status = E_ProblemSolutionStatus.Unbounded then
    let tight :=
      if (env.classification = E_ObjectiveFunctionClassification.Linear
            ∧ env.objectiveIsDualUnbounded)
          ∨ (env.classification = E_ObjectiveFunctionClassification.Quadratic
            ∧ env.objectiveIsDualUnbounded) then
        tightenDualUnbounded env.allVariables bounds false
      else if E_ObjectiveFunctionClassification.QuadraticConsideredAsNonlinear.rank
          ≤ env.classification.rank then
        (updateVariableBound bounds env.dualAuxiliaryObjectiveVariableIndex
            (-(getUnboundedVariableBoundValue / literal10e30))
            (getUnboundedVariableBoundValue / literal10e30), true)
      else (bounds, false)
    if tight.2 then
      (env.resolveStatus, restoreDualUnbounded env.allVariables tight.1, true)
    else (status, bounds, false)
  else (status, bounds, false)

end SHOT

namespace SHOT

theorem selectFromConstraints_counter (maxHyperplanes : Int) (src : E_HyperplaneSource)
    (pt : List ℚ) (cs : List PairIndexValue) (added : Int) :
    (selectFromConstraints maxHyperplanes src pt cs added).2.1
      = added + (selectFromConstraints maxHyperplanes src pt cs added).1.length := by
  induction cs generalizing added with
  | nil => simp [selectFromConstraints]
  | cons c cs ih =>
    by_cases hcap : maxHyperplanes ≤ added
    · simp [selectFromConstraints, hcap]
    · by_cases hval : c.value < 0
      · simpa [selectFromConstraints, hcap, hval] using ih added
      · have h := ih (added + 1)
        simp only [selectFromConstraints, hcap, hval, if_false, List.length_cons]
        push_cast
        omega

theorem selectFromConstraints_counter_le (maxHyperplanes : Int) (src : E_HyperplaneSource)
    (pt : List ℚ) (cs : List PairIndexValue) (added : Int)
    (h : added ≤ maxHyperplanes) :
    (selectFromConstraints maxHyperplanes src pt cs added).2.1 ≤ maxHyperplanes := by
  induction cs generalizing added with
  | nil => simpa [selectFromConstraints] using h
  | cons c cs ih =>
    by_cases hcap : maxHyperplanes ≤ added
    · simpa [selectFromConstraints, hcap] using h
    · by_cases hval : c.value < 0
      · simpa [selectFromConstraints, hcap, hval] using ih added h
      · have : added + 1 ≤ maxHyperplanes := by omega
        simpa [selectFromConstraints, hcap, hval] using ih (added + 1) this

theorem selectFromPoints_length_le (maxHyperplanes : Int) (isMILP : Bool)
    (f : List ℚ → List PairIndexValue) (ps : List SolutionPoint) (i : Nat) (added : Int)
    (h0 : 0 ≤ added) (h : added ≤ maxHyperplanes) :
    ((selectFromPoints maxHyperplanes isMILP f ps i added).length : Int)
      ≤ maxHyperplanes - added := by
  induction ps generalizing i added with
  | nil => simp [selectFromPoints]; omega
  | cons p ps ih =>
    have hcnt := selectFromConstraints_counter maxHyperplanes
      (hyperplaneSourceTag i isMILP) p.point (f p.point) added
    have hle := selectFromConstraints_counter_le maxHyperplanes
      (hyperplaneSourceTag i isMILP) p.point (f p.point) added h
    set r := selectFromConstraints maxHyperplanes (hyperplaneSourceTag i isMILP)
      p.point (f p.point) added with hr
    by_cases hret : r.2.2
    · simp only [selectFromPoints, ← hr, hret, if_true]
      omega
    · have h0n : (0 : Int) ≤ r.2.1 := by omega
      have hn : r.2.1 ≤ maxHyperplanes := hle
      have hrec := ih (i + 1) r.2.1 h0n hn
      have happ : (r.1 ++ selectFromPoints maxHyperplanes isMILP f ps (i + 1) r.2.1).length
          = r.1.length + (selectFromPoints maxHyperplanes isMILP f ps (i + 1) r.2.1).length :=
        List.length_append _ _
      simp only [selectFromPoints, ← hr, hret, Bool.false_eq_true, if_false]
      rw [happ]
      push_cast
      omega

end SHOT

/-- C1: one invocation of the ECP point selector
`TaskSelectHyperplanePointsSolution::run(solPoints)` enqueues at most
`MaxHyperplanesPerIteration` hyperplanes onto the hyperplane waiting list,
for every input sequence of solution points and every (nonnegative) value
of the setting; once the cap is reached the `return` statement drops the
remaining constraints and points. -/
theorem C1_point_selector_caps_hyperplanes (maxHyperplanes : Int) (isMILP : Bool)
    (mostDeviatingConstraints : List ℚ → List SHOT.PairIndexValue)
    (solPoints : List SHOT.SolutionPoint) (hmax : 0 ≤ maxHyperplanes) :
    ((SHOT.TaskSelectHyperplanePointsSolution_run maxHyperplanes isMILP
        mostDeviatingConstraints solPoints).length : Int) ≤ maxHyperplanes := by
  have := SHOT.selectFromPoints_length_le maxHyperplanes isMILP
    mostDeviatingConstraints solPoints 0 0 (le_refl 0) hmax
  simpa [SHOT.TaskSelectHyperplanePointsSolution_run] using this

/-- Witness for C1: with cap 2 and a single point violating three
constraints, exactly two hyperplanes are enqueued, which is within the cap. -/
theorem C1_point_selector_caps_hyperplanes_witness :
    ((SHOT.TaskSelectHyperplanePointsSolution_run 2 true
        (fun _ => [⟨0, 1⟩, ⟨1, 1⟩, ⟨2, 1⟩])
        [⟨[5], 0, 0, ⟨0, 1⟩⟩]).length : Int) ≤ 2 :=
  C1_point_selector_caps_hyperplanes 2 true
    (fun _ => [⟨0, 1⟩, ⟨1, 1⟩, ⟨2, 1⟩]) [⟨[5], 0, 0, ⟨0, 1⟩⟩] (by decide)

namespace SHOT

theorem termsOkLoop_false_of_nan {ts : List FPTerm} {t : FPTerm}
    (hmem : t ∈ ts) (hnan : t.value = FP.nan) : termsOkLoop ts = false := by
  induction ts with
  | nil => cases hmem
  | cons s ss ih =>
    rcases List.mem_cons.mp hmem with h | h
    · subst h
      simp [termsOkLoop, hnan, FP.selfNe]
    · by_cases hs : s.value.selfNe
      · simp [termsOkLoop, hs]
      · simp [termsOkLoop, hs, ih h]

end SHOT

/-- C2: in the cut-generating `GRB_CB_MIPSOL` block, a candidate whose
maximum nonlinear-constraint deviation is within the configured constraint
tolerance is accepted as-is: the block returns early, performs no action
(in particular generates no hyperplane cut) and leaves the hyperplane
waiting list unchanged. -/
theorem C2_within_tolerance_accepts_without_cuts (env : SHOT.CallbackEnv)
    (e : SHOT.MipsolEvent) (waiting : List SHOT.Hyperplane)
    (hnl : 0 < e.numberOfNonlinearConstraints)
    (htol : e.maxDevValue ≤ e.constraintTolerance) :
    (SHOT.GurobiCallback_mipsolCutBlock env e waiting).1 = []
      ∧ (SHOT.GurobiCallback_mipsolCutBlock env e waiting).2.1 = waiting := by
  simp [SHOT.GurobiCallback_mipsolCutBlock, hnl, htol]

/-- Witness for C2: deviation `0.0005` against tolerance `0.001` (one
nonlinear constraint): the block does nothing. -/
theorem C2_within_tolerance_accepts_without_cuts_witness :
    (SHOT.GurobiCallback_mipsolCutBlock
        ⟨SHOT.ES_HyperplaneCutStrategy.ECP, SHOT.E_ObjectiveFunctionClassification.Linear,
          fun _ => [], fun _ => []⟩
        { numberOfNonlinearConstraints := 1, maxDevIndex := 0, maxDevValue := 5/10000,
          constraintTolerance := 1/1000, mipsolObj := 0, solution := [0],
          iterationNumber := 1, useLinesearchSetting := false,
          useIntegerCutsSetting := false, integerCutWaitingList := [],
          fixedNLPCheck := false, gapToleranceMet := false } []).1 = []
      ∧ (SHOT.GurobiCallback_mipsolCutBlock
          ⟨SHOT.ES_HyperplaneCutStrategy.ECP, SHOT.E_ObjectiveFunctionClassification.Linear,
            fun _ => [], fun _ => []⟩
          { numberOfNonlinearConstraints := 1, maxDevIndex := 0, maxDevValue := 5/10000,
            constraintTolerance := 1/1000, mipsolObj := 0, solution := [0],
            iterationNumber := 1, useLinesearchSetting := false,
            useIntegerCutsSetting := false, integerCutWaitingList := [],
            fixedNLPCheck := false, gapToleranceMet := false } []).2.1 = [] :=
  C2_within_tolerance_accepts_without_cuts _ _ _ (by decide) (by norm_num)

/-- C3: in `createHyperplane`, if any linear-term coefficient returned by
`createHyperplaneTerms` is NaN, the whole hyperplane is discarded: no
`addLazy` cut is issued, nothing is appended to the ledger and the
iteration hyperplane counters are not incremented. -/
theorem C3_nan_discards_whole_hyperplane (currIterNumber : Nat)
    (tmpPair : List SHOT.FPTerm × SHOT.FP) (hp : SHOT.Hyperplane) (t : SHOT.FPTerm)
    (hmem : t ∈ tmpPair.1) (hnan : t.value = SHOT.FP.nan) :
    (SHOT.GurobiCallback_createHyperplane currIterNumber (Option.some tmpPair) hp).addLazyCalls = []
      ∧ (SHOT.GurobiCallback_createHyperplane currIterNumber (Option.some tmpPair) hp).ledgerAppends = []
      ∧ (SHOT.GurobiCallback_createHyperplane currIterNumber
          (Option.some tmpPair) hp).numHyperplanesAddedDelta = 0 := by
  have hok : SHOT.termsOkLoop tmpPair.1 = false := SHOT.termsOkLoop_false_of_nan hmem hnan
  simp [SHOT.GurobiCallback_createHyperplane, hok]

/-- Witness for C3: a two-term hyperplane whose second coefficient is NaN
is fully discarded. -/
theorem C3_nan_discards_whole_hyperplane_witness :
    (SHOT.GurobiCallback_createHyperplane 1
        (Option.some ([⟨0, SHOT.FP.num 1⟩, ⟨1, SHOT.FP.nan⟩], SHOT.FP.num 2))
        ⟨0, [1], SHOT.E_HyperplaneSource.LPRelaxedSolutionPoint⟩).addLazyCalls = []
      ∧ (SHOT.GurobiCallback_createHyperplane 1
          (Option.some ([⟨0, SHOT.FP.num 1⟩, ⟨1, SHOT.FP.nan⟩], SHOT.FP.num 2))
          ⟨0, [1], SHOT.E_HyperplaneSource.LPRelaxedSolutionPoint⟩).ledgerAppends = []
      ∧ (SHOT.GurobiCallback_createHyperplane 1
          (Option.some ([⟨0, SHOT.FP.num 1⟩, ⟨1, SHOT.FP.nan⟩], SHOT.FP.num 2))
          ⟨0, [1], SHOT.E_HyperplaneSource.LPRelaxedSolutionPoint⟩).numHyperplanesAddedDelta = 0 :=
  C3_nan_discards_whole_hyperplane 1 _ _ ⟨1, SHOT.FP.nan⟩ (by decide) (by decide)

/-- C4 counterexample: a fully successful `createHyperplane` call (no NaN
coefficient) issues its `addLazy` cut but appends nothing to the
`GeneratedHyperplane` ledger, and the entry it builds locally carries the
constant row identifier `0` — the push onto the ledger is commented out in
the source, so no ledger entry with a fresh sequence-assigned identifier
exists. -/
theorem C4_counterexample_no_ledger_entry :
    (SHOT.GurobiCallback_createHyperplane 1
        (Option.some ([⟨0, SHOT.FP.num 2⟩], SHOT.FP.num 3))
        ⟨7, [1], SHOT.E_HyperplaneSource.MIPOptimalSolutionPoint⟩).addLazyCalls ≠ []
      ∧ (SHOT.GurobiCallback_createHyperplane 1
          (Option.some ([⟨0, SHOT.FP.num 2⟩], SHOT.FP.num 3))
          ⟨7, [1], SHOT.E_HyperplaneSource.MIPOptimalSolutionPoint⟩).ledgerAppends = []
      ∧ (SHOT.GurobiCallback_createHyperplane 1
          (Option.some ([⟨0, SHOT.FP.num 2⟩], SHOT.FP.num 3))
          ⟨7, [1], SHOT.E_HyperplaneSource.MIPOptimalSolutionPoint⟩).builtEntry
        = Option.some
            { generatedConstraintIndex := 0, sourceConstraintIndex := 7,
              generatedPoint := [1],
              source := SHOT.E_HyperplaneSource.MIPOptimalSolutionPoint,
              generatedIter := 1, isLazy := false, isRemoved := false } := by
  refine ⟨?_, ?_, ?_⟩ <;> decide

/-- C4 amended: whenever `createHyperplane` succeeds in adding a lazy cut,
no entry is recorded in the `GeneratedHyperplane` ledger (the push is
disabled in the source), and the entry built locally always has generated
constraint row identifier `0` — identifiers are neither fresh nor
monotonically increasing. -/
theorem C4_amended_ledger_disabled_and_index_constant (currIterNumber : Nat)
    (createHyperplaneTerms : Option (List SHOT.FPTerm × SHOT.FP)) (hp : SHOT.Hyperplane) :
    (SHOT.GurobiCallback_createHyperplane currIterNumber createHyperplaneTerms hp).ledgerAppends = []
      ∧ (∀ g, (SHOT.GurobiCallback_createHyperplane currIterNumber
            createHyperplaneTerms hp).builtEntry = Option.some g →
          g.generatedConstraintIndex = 0) := by
  cases createHyperplaneTerms with
  | none => simp [SHOT.GurobiCallback_createHyperplane]
  | some tmpPair =>
    by_cases hok : SHOT.termsOkLoop tmpPair.1
    · refine ⟨by simp [SHOT.GurobiCallback_createHyperplane, hok], ?_⟩
      intro g hg
      simp only [SHOT.GurobiCallback_createHyperplane, hok, if_true] at hg
      cases hg
      rfl
    · simp [SHOT.GurobiCallback_createHyperplane, hok]

/-- Witness for the amended C4: at a concrete successful call the ledger
stays empty and the locally built entry has row identifier `0`. -/
theorem C4_amended_ledger_disabled_witness :
    (SHOT.GurobiCallback_createHyperplane 2
        (Option.some ([⟨1, SHOT.FP.num 5⟩], SHOT.FP.num 1))
        ⟨3, [2], SHOT.E_HyperplaneSource.LPRelaxedSolutionPoint⟩).ledgerAppends = []
      ∧ ({ generatedConstraintIndex := 0, sourceConstraintIndex := 3,
            generatedPoint := [2],
            source := SHOT.E_HyperplaneSource.LPRelaxedSolutionPoint,
            generatedIter := 2, isLazy := false,
            isRemoved := false } : SHOT.GeneratedHyperplane).generatedConstraintIndex = 0 :=
  ⟨(C4_amended_ledger_disabled_and_index_constant 2
      (Option.some ([⟨1, SHOT.FP.num 5⟩], SHOT.FP.num 1))
      ⟨3, [2], SHOT.E_HyperplaneSource.LPRelaxedSolutionPoint⟩).1,
    (C4_amended_ledger_disabled_and_index_constant 2
      (Option.some ([⟨1, SHOT.FP.num 5⟩], SHOT.FP.num 1))
      ⟨3, [2], SHOT.E_HyperplaneSource.LPRelaxedSolutionPoint⟩).2 _ (by decide)⟩

/-- C5 counterexample: on an optimal relaxation node below the
`Relaxation.MaxLazyConstraints` cap, the `GRB_CB_MIPNODE` block runs the
point selector and a new hyperplane appears on the waiting list, yet the
action trace contains no cut-injection (`createHyperplane`/`addLazy`)
action — the cut is only enqueued, not injected into the active search
before the callback returns. -/
theorem C5_counterexample_mipnode_does_not_inject :
    ((SHOT.GurobiCallback_mipnodeBlock
        ⟨SHOT.ES_HyperplaneCutStrategy.ECP, SHOT.E_ObjectiveFunctionClassification.Linear,
          fun _ => [⟨3, [2], SHOT.E_HyperplaneSource.LPRelaxedSolutionPoint⟩], fun _ => []⟩
        { mipnodeStatus := 2, relaxedLazyHyperplanesAdded := 0,
          maxLazyConstraintsSetting := 10, nodeSolution := [2],
          numberOfNonlinearConstraints := 1, maxDevIndex := 3, maxDevValue := 5,
          objectiveValue := 0, iterationNumber := 1 } []).2.1.length = 1)
      ∧ ((SHOT.GurobiCallback_mipnodeBlock
          ⟨SHOT.ES_HyperplaneCutStrategy.ECP, SHOT.E_ObjectiveFunctionClassification.Linear,
            fun _ => [⟨3, [2], SHOT.E_HyperplaneSource.LPRelaxedSolutionPoint⟩], fun _ => []⟩
          { mipnodeStatus := 2, relaxedLazyHyperplanesAdded := 0,
            maxLazyConstraintsSetting := 10, nodeSolution := [2],
            numberOfNonlinearConstraints := 1, maxDevIndex := 3, maxDevValue := 5,
            objectiveValue := 0, iterationNumber := 1 } []).1.all
          (fun a => !a.isCutInjection) = true) := by
  refine ⟨?_, ?_⟩ <;> decide

/-- C5 amended: on a `GRB_CB_MIPNODE` event whose node relaxation is
optimal, the point selector is run against the relaxation point if and
only if the relaxation-cut count is still below the configured
`Relaxation.MaxLazyConstraints` cap; the resulting cuts are enqueued on
the hyperplane waiting list (no cut is injected into the active search
within this block), and below the cap the waiting list grows exactly by
the selector's output. -/
theorem C5_amended_selector_enqueues_iff_below_cap (env : SHOT.CallbackEnv)
    (e : SHOT.MipnodeEvent) (waiting : List SHOT.Hyperplane)
    (hstatus : e.mipnodeStatus = SHOT.GRB_OPTIMAL) :
    ((SHOT.GurobiCallback_mipnodeBlock env e waiting).1 ≠ []
        ↔ e.relaxedLazyHyperplanesAdded < e.maxLazyConstraintsSetting)
      ∧ (∀ a ∈ (SHOT.GurobiCallback_mipnodeBlock env e waiting).1,
          a.isCutInjection = false)
      ∧ (e.relaxedLazyHyperplanesAdded < e.maxLazyConstraintsSetting →
          (SHOT.GurobiCallback_mipnodeBlock env e waiting).2.1
            = waiting ++ env.selectorAppends [SHOT.mipnodeSolutionPoint e])
      ∧ (¬ e.relaxedLazyHyperplanesAdded < e.maxLazyConstraintsSetting →
          (SHOT.GurobiCallback_mipnodeBlock env e waiting).2.1 = waiting) := by
  by_cases hcap : e.relaxedLazyHyperplanesAdded < e.maxLazyConstraintsSetting
  · have hg : e.mipnodeStatus = SHOT.GRB_OPTIMAL
        ∧ e.relaxedLazyHyperplanesAdded < e.maxLazyConstraintsSetting := ⟨hstatus, hcap⟩
    refine ⟨?_, ?_, ?_, ?_⟩
    · simp only [SHOT.GurobiCallback_mipnodeBlock, if_pos hg]
      cases env.strategy <;> simp [hcap]
    · intro a ha
      simp only [SHOT.GurobiCallback_mipnodeBlock, if_pos hg] at ha
      cases hs : env.strategy <;> rw [hs] at ha <;> simp at ha <;> subst ha <;> rfl
    · intro _
      simp only [SHOT.GurobiCallback_mipnodeBlock, if_pos hg]
    · intro h
      exact absurd hcap h
  · have hg : ¬(e.mipnodeStatus = SHOT.GRB_OPTIMAL
        ∧ e.relaxedLazyHyperplanesAdded < e.maxLazyConstraintsSetting) := fun h => hcap h.2
    refine ⟨?_, ?_, ?_, ?_⟩
    · simp [SHOT.GurobiCallback_mipnodeBlock, if_neg hg, hcap]
    · intro a ha
      simp [SHOT.GurobiCallback_mipnodeBlock, if_neg hg] at ha
    · intro h
      exact absurd h hcap
    · intro _
      simp [SHOT.GurobiCallback_mipnodeBlock, if_neg hg]

/-- Witness for the amended C5: at a concrete optimal relaxation node with
the cap not yet reached, the selector action trace is nonempty. -/
theorem C5_amended_selector_witness :
    (SHOT.GurobiCallback_mipnodeBlock
        ⟨SHOT.ES_HyperplaneCutStrategy.ECP, SHOT.E_ObjectiveFunctionClassification.Linear,
          fun _ => [⟨3, [2], SHOT.E_HyperplaneSource.LPRelaxedSolutionPoint⟩], fun _ => []⟩
        { mipnodeStatus := 2, relaxedLazyHyperplanesAdded := 0,
          maxLazyConstraintsSetting := 10, nodeSolution := [2],
          numberOfNonlinearConstraints := 1, maxDevIndex := 3, maxDevValue := 5,
          objectiveValue := 0, iterationNumber := 1 } []).1 ≠ [] :=
  ((C5_amended_selector_enqueues_iff_below_cap _ _ _ (by decide)).1).mpr (by decide)

namespace SHOT

theorem boundsNoRegress_refl (isMinimization : Bool) (st : BoundLedger) :
    boundsNoRegress isMinimization st st := by
  cases isMinimization <;> simp [boundsNoRegress]

theorem boundsNoRegress_trans {isMinimization : Bool} {a b c : BoundLedger}
    (h1 : boundsNoRegress isMinimization a b) (h2 : boundsNoRegress isMinimization b c) :
    boundsNoRegress isMinimization a c := by
  cases isMinimization <;> simp [boundsNoRegress] at h1 h2 ⊢ <;>
    exact ⟨by linarith [h1.1, h2.1], by linarith [h1.2, h2.2]⟩

theorem addDualSolutionCandidate_noRegress (isMinimization : Bool) (st : BoundLedger)
    (v : ℚ) : boundsNoRegress isMinimization st (addDualSolutionCandidate isMinimization st v) := by
  unfold addDualSolutionCandidate
  cases isMinimization <;> split_ifs with h <;>
    simp_all [boundsNoRegress] <;> linarith

theorem addPrimalSolutionCandidate_noRegress (isMinimization : Bool) (st : BoundLedger)
    (v : ℚ) : boundsNoRegress isMinimization st (addPrimalSolutionCandidate isMinimization st v) := by
  unfold addPrimalSolutionCandidate
  cases isMinimization <;> split_ifs with h <;>
    simp_all [boundsNoRegress] <;> linarith

theorem callbackBoundStep_noRegress (isMinimization : Bool) (st : BoundLedger)
    (e : CallbackEvent) :
    boundsNoRegress isMinimization st (callbackBoundStep isMinimization st e) := by
  have hA : boundsNoRegress isMinimization st
      (if dualSubmits isMinimization st.dualBound e then
        addDualSolutionCandidate isMinimization st (dualBoundInfo e) else st) := by
    by_cases h : dualSubmits isMinimization st.dualBound e
    · simpa [h] using addDualSolutionCandidate_noRegress isMinimization st (dualBoundInfo e)
    · simpa [h] using boundsNoRegress_refl isMinimization st
  set L1 := (if dualSubmits isMinimization st.dualBound e then
    addDualSolutionCandidate isMinimization st (dualBoundInfo e) else st) with hL1
  have hB : boundsNoRegress isMinimization L1
      (if primalSubmits isMinimization L1.primalBound e then
        addPrimalSolutionCandidate isMinimization L1 e.calculatedObjectiveValue else L1) := by
    by_cases h : primalSubmits isMinimization L1.primalBound e
    · simpa [h] using addPrimalSolutionCandidate_noRegress isMinimization L1 e.calculatedObjectiveValue
    · simpa [h] using boundsNoRegress_refl isMinimization L1
  have hstep : callbackBoundStep isMinimization st e
      = (if primalSubmits isMinimization L1.primalBound e then
        addPrimalSolutionCandidate isMinimization L1 e.calculatedObjectiveValue else L1) := by
    simp [callbackBoundStep, hL1]
  rw [hstep]
  exact boundsNoRegress_trans hA hB

theorem callbackBoundSteps_noRegress (isMinimization : Bool) (st : BoundLedger)
    (es : List CallbackEvent) :
    boundsNoRegress isMinimization st (callbackBoundSteps isMinimization st es) := by
  induction es generalizing st with
  | nil => simpa [callbackBoundSteps] using boundsNoRegress_refl isMinimization st
  | cons e es ih =>
    have h1 := callbackBoundStep_noRegress isMinimization st e
    have h2 := ih (callbackBoundStep isMinimization st e)
    have : callbackBoundSteps isMinimization st (e :: es)
        = callbackBoundSteps isMinimization (callbackBoundStep isMinimization st e) es := by
      simp [callbackBoundSteps]
    rw [this]
    exact boundsNoRegress_trans h1 h2

theorem dualSubmits_strict (isMinimization : Bool) (d : ℚ) (e : CallbackEvent)
    (h : dualSubmits isMinimization d e = true) :
    if isMinimization then d < dualBoundInfo e else dualBoundInfo e < d := by
  cases isMinimization <;> simp [dualSubmits] at h <;> simpa using h.2

theorem dualSubmits_tie (isMinimization : Bool) (e : CallbackEvent) :
    dualSubmits isMinimization (dualBoundInfo e) e = false := by
  cases isMinimization <;> simp [dualSubmits]

theorem primalSubmits_strict (isMinimization : Bool) (p : ℚ) (e : CallbackEvent)
    (h : primalSubmits isMinimization p e = true) :
    if isMinimization then e.mipsolObj < p else p < e.mipsolObj := by
  cases isMinimization <;> simp [primalSubmits] at h <;> simpa using h.2

theorem primalSubmits_tie (isMinimization : Bool) (e : CallbackEvent) :
    primalSubmits isMinimization e.mipsolObj e = false := by
  cases isMinimization <;> simp [primalSubmits]

end SHOT

/-- C6: a dual solution candidate is submitted only on a strict improvement
of the current dual bound in the optimization direction, and a primal
solution candidate only on a strict improvement of the current primal
bound; equal (tied) bounds never submit; and, with the (spec-modelled)
ledger accepting only strict improvements, neither recorded bound ever
regresses across any sequence of callback events. -/
theorem C6_bound_candidates_strict_and_monotone (isMinimization : Bool)
    (d p : ℚ) (e : SHOT.CallbackEvent) (st : SHOT.BoundLedger)
    (es : List SHOT.CallbackEvent) :
    (SHOT.dualSubmits isMinimization d e = true →
        (if isMinimization then d < SHOT.dualBoundInfo e else SHOT.dualBoundInfo e < d))
      ∧ SHOT.dualSubmits isMinimization (SHOT.dualBoundInfo e) e = false
      ∧ (SHOT.primalSubmits isMinimization p e = true →
          (if isMinimization then e.mipsolObj < p else p < e.mipsolObj))
      ∧ SHOT.primalSubmits isMinimization e.mipsolObj e = false
      ∧ SHOT.boundsNoRegress isMinimization st
          (SHOT.callbackBoundSteps isMinimization st es) :=
  ⟨SHOT.dualSubmits_strict isMinimization d e,
    SHOT.dualSubmits_tie isMinimization e,
    SHOT.primalSubmits_strict isMinimization p e,
    SHOT.primalSubmits_tie isMinimization e,
    SHOT.callbackBoundSteps_noRegress isMinimization st es⟩

/-- Witness for C6: for a minimization run with dual bound `0` and an event
reporting a dual bound of `5`, submission implies the strict improvement
`0 < 5`, and the recorded bounds do not regress over that event. -/
theorem C6_bound_candidates_witness :
    (if true then (0 : ℚ) < SHOT.dualBoundInfo ⟨SHOT.GRBWhere.mip, 5, 0, 0, 0, 0⟩
        else SHOT.dualBoundInfo ⟨SHOT.GRBWhere.mip, 5, 0, 0, 0, 0⟩ < 0)
      ∧ SHOT.boundsNoRegress true ⟨0, 10⟩
        (SHOT.callbackBoundSteps true ⟨0, 10⟩ [⟨SHOT.GRBWhere.mip, 5, 0, 0, 0, 0⟩]) :=
  ⟨(C6_bound_candidates_strict_and_monotone true 0 10 ⟨SHOT.GRBWhere.mip, 5, 0, 0, 0, 0⟩
        ⟨0, 10⟩ [⟨SHOT.GRBWhere.mip, 5, 0, 0, 0, 0⟩]).1 (by decide),
    (C6_bound_candidates_strict_and_monotone true 0 10 ⟨SHOT.GRBWhere.mip, 5, 0, 0, 0, 0⟩
        ⟨0, 10⟩ [⟨SHOT.GRBWhere.mip, 5, 0, 0, 0, 0⟩]).2.2.2.2⟩

namespace SHOT

theorem updateVariableBound_eval (b : Int → ℚ × ℚ) (i : Int) (lb ub : ℚ) (j : Int) :
    updateVariableBound b i lb ub j = if j = i then (lb, ub) else b j := by
  unfold updateVariableBound
  by_cases h1 : b i = (lb, ub)
  · rw [if_pos h1]
    by_cases h2 : j = i
    · rw [if_pos h2, h2, h1]
    · rw [if_neg h2]
  · rw [if_neg h1]

theorem restoreDualUnbounded_notTouched (vs : List ReformulatedVariable)
    (b : Int → ℚ × ℚ) (j : Int)
    (h : ∀ V ∈ vs, V.isDualUnbounded = true → V.index ≠ j) :
    restoreDualUnbounded vs b j = b j := by
  induction vs generalizing b with
  | nil => rfl
  | cons V ws ih =>
    have hrest : ∀ U ∈ ws, U.isDualUnbounded = true → U.index ≠ j :=
      fun U hU hd => h U (List.mem_cons_of_mem _ hU) hd
    by_cases hV : V.isDualUnbounded = true
    · have hne : V.index ≠ j := h V (List.mem_cons_self V ws) hV
      simp only [restoreDualUnbounded, hV, if_true]
      rw [ih _ hrest, updateVariableBound_eval, if_neg (fun hj => hne hj.symm)]
    · simp only [restoreDualUnbounded, hV, if_false]
      exact ih _ hrest

theorem restoreDualUnbounded_touched (vs : List ReformulatedVariable)
    (b : Int → ℚ × ℚ) (V : ReformulatedVariable)
    (hnodup : (vs.map ReformulatedVariable.index).Nodup)
    (hmem : V ∈ vs) (hdu : V.isDualUnbounded = true) :
    restoreDualUnbounded vs b V.index = (V.lowerBound, V.upperBound) := by
  induction vs generalizing b with
  | nil => cases hmem
  | cons W ws ih =>
    have hnodup' : (ws.map ReformulatedVariable.index).Nodup :=
      (List.nodup_cons.mp hnodup).2
    have hWnot : W.index ∉ ws.map ReformulatedVariable.index :=
      (List.nodup_cons.mp hnodup).1
    rcases List.mem_cons.mp hmem with h | h
    · subst h
      simp only [restoreDualUnbounded, hdu, if_true]
      have hrest : ∀ U ∈ ws, U.isDualUnbounded = true → U.index ≠ V.index := by
        intro U hU _ hEq
        exact hWnot (hEq ▸ List.mem_map_of_mem ReformulatedVariable.index hU)
      rw [restoreDualUnbounded_notTouched ws _ _ hrest, updateVariableBound_eval,
        if_pos rfl]
    · by_cases hW : W.isDualUnbounded = true
      · simp only [restoreDualUnbounded, hW, if_true]
        exact ih _ hnodup' h
      · simp only [restoreDualUnbounded, hW, if_false]
        exact ih _ hnodup' h

theorem tightenDualUnbounded_flag (vs : List ReformulatedVariable)
    (b : Int → ℚ × ℚ) (u : Bool) :
    (tightenDualUnbounded vs b u).2
      = (u || vs.any (fun V => V.isDualUnbounded)) := by
  induction vs generalizing b u with
  | nil => simp [tightenDualUnbounded]
  | cons V ws ih =>
    by_cases hV : V.isDualUnbounded = true
    · simp [tightenDualUnbounded, hV, ih]
    · simp [tightenDualUnbounded, hV, ih]

end SHOT

/-- C7 counterexample: with a nonlinear objective classification, `solveProblem`
tightens the auxiliary objective variable's bounds for the unbounded retry, but
the restore loop only runs over the reformulated problem's `allVariables`; the
auxiliary variable (column 0 here, with no problem variable present) keeps its
tightened bounds, so the variable bounds after `solveProblem` returns differ
from the bounds before the retry. -/
theorem C7_counterexample_aux_bounds_not_restored :
    (SHOT.MIPSolverCbc_unboundedRetry
        ⟨SHOT.E_ObjectiveFunctionClassification.Nonlinear, false, [], 0,
          SHOT.E_ProblemSolutionStatus.Optimal⟩
        SHOT.E_ProblemSolutionStatus.Unbounded (fun _ => (0, 0))).2.1 0
      ≠ (0, 0) := by
  have h : (SHOT.MIPSolverCbc_unboundedRetry
      ⟨SHOT.E_ObjectiveFunctionClassification.Nonlinear, false, [], 0,
        SHOT.E_ProblemSolutionStatus.Optimal⟩
      SHOT.E_ProblemSolutionStatus.Unbounded (fun _ => (0, 0))).2.1 0
      = (-(SHOT.getUnboundedVariableBoundValue / SHOT.literal10e30),
          SHOT.getUnboundedVariableBoundValue / SHOT.literal10e30) := by
    norm_num [SHOT.MIPSolverCbc_unboundedRetry, SHOT.restoreDualUnbounded,
      SHOT.E_ObjectiveFunctionClassification.rank, SHOT.updateVariableBound_eval]
  rw [h]
  have hpos : (0 : ℚ) < SHOT.getUnboundedVariableBoundValue / SHOT.literal10e30 := by
    norm_num [SHOT.getUnboundedVariableBoundValue, SHOT.literal10e30]
  intro hc
  rw [Prod.mk.injEq] at hc
  exact absurd hc.2.symm (ne_of_lt hpos)

namespace SHOT

theorem unboundedRetry_eq_branch1 (env : UnboundedRetryEnv) (bounds : Int → ℚ × ℚ)
    (hguard : (env.classification = E_ObjectiveFunctionClassification.Linear
          ∧ env.objectiveIsDualUnbounded)
        ∨ (env.classification = E_ObjectiveFunctionClassification.Quadratic
          ∧ env.objectiveIsDualUnbounded))
    (hflag : (tightenDualUnbounded env.allVariables bounds false).2 = true) :
    MIPSolverCbc_unboundedRetry env E_ProblemSolutionStatus.Unbounded bounds
      = (env.resolveStatus,
          restoreDualUnbounded env.allVariables
            (tightenDualUnbounded env.allVariables bounds false).1, true) := by
  unfold MIPSolverCbc_unboundedRetry
  rw [if_pos rfl, if_pos hguard, if_pos hflag]

theorem unboundedRetry_eq_branch2 (env : UnboundedRetryEnv) (bounds : Int → ℚ × ℚ)
    (hguard : ¬((env.classification = E_ObjectiveFunctionClassification.Linear
          ∧ env.objectiveIsDualUnbounded)
        ∨ (env.classification = E_ObjectiveFunctionClassification.Quadratic
          ∧ env.objectiveIsDualUnbounded)))
    (hrank : E_ObjectiveFunctionClassification.QuadraticConsideredAsNonlinear.rank
        ≤ env.classification.rank) :
    MIPSolverCbc_unboundedRetry env E_ProblemSolutionStatus.Unbounded bounds
      = (env.resolveStatus,
          restoreDualUnbounded env.allVariables
            (updateVariableBound bounds env.dualAuxiliaryObjectiveVariableIndex
              (-(getUnboundedVariableBoundValue / literal10e30))
              (getUnboundedVariableBoundValue / literal10e30)), true) := by
  unfold MIPSolverCbc_unboundedRetry
  rw [if_pos rfl, if_neg hguard, if_pos hrank]
  simp

end SHOT

/-- C7 amended: on an Unbounded status, `solveProblem` tightens bounds by
the finite factor `1e50 / 10e30` and re-solves exactly once, returning the
re-solve's status; afterwards the restore loop resets the dual-unbounded
problem variables to the problem's stored bounds regardless of the
re-solve's outcome, but in the auxiliary-objective branch (classification
at least `QuadraticConsideredAsNonlinear`) the auxiliary objective
variable is not in the restore loop and keeps its tightened bounds after
`solveProblem` returns. -/
theorem C7_amended_restore_misses_auxiliary (env : SHOT.UnboundedRetryEnv)
    (bounds : Int → ℚ × ℚ) :
    (((env.classification = SHOT.E_ObjectiveFunctionClassification.Linear
            ∧ env.objectiveIsDualUnbounded)
          ∨ (env.classification = SHOT.E_ObjectiveFunctionClassification.Quadratic
            ∧ env.objectiveIsDualUnbounded)) →
        (env.allVariables.map SHOT.ReformulatedVariable.index).Nodup →
        ∀ V ∈ env.allVariables, V.isDualUnbounded = true →
          (SHOT.MIPSolverCbc_unboundedRetry env
              SHOT.E_ProblemSolutionStatus.Unbounded bounds).1 = env.resolveStatus
            ∧ (SHOT.MIPSolverCbc_unboundedRetry env
                SHOT.E_ProblemSolutionStatus.Unbounded bounds).2.1 V.index
              = (V.lowerBound, V.upperBound))
      ∧ (¬((env.classification = SHOT.E_ObjectiveFunctionClassification.Linear
            ∧ env.objectiveIsDualUnbounded)
          ∨ (env.classification = SHOT.E_ObjectiveFunctionClassification.Quadratic
            ∧ env.objectiveIsDualUnbounded)) →
        SHOT.E_ObjectiveFunctionClassification.QuadraticConsideredAsNonlinear.rank
            ≤ env.classification.rank →
        (∀ V ∈ env.allVariables, V.isDualUnbounded = true →
            V.index ≠ env.dualAuxiliaryObjectiveVariableIndex) →
          (SHOT.MIPSolverCbc_unboundedRetry env
              SHOT.E_ProblemSolutionStatus.Unbounded bounds).1 = env.resolveStatus
            ∧ (SHOT.MIPSolverCbc_unboundedRetry env
                SHOT.E_ProblemSolutionStatus.Unbounded bounds).2.1
                env.dualAuxiliaryObjectiveVariableIndex
              = (-(SHOT.getUnboundedVariableBoundValue / SHOT.literal10e30),
                  SHOT.getUnboundedVariableBoundValue / SHOT.literal10e30)) := by
  constructor
  · intro hguard hnodup V hmem hdu
    have hflag : (SHOT.tightenDualUnbounded env.allVariables bounds false).2 = true := by
      rw [SHOT.tightenDualUnbounded_flag]
      simp only [Bool.false_or, List.any_eq_true]
      exact ⟨V, hmem, hdu⟩
    rw [SHOT.unboundedRetry_eq_branch1 env bounds hguard hflag]
    exact ⟨rfl, SHOT.restoreDualUnbounded_touched env.allVariables _ V hnodup hmem hdu⟩
  · intro hguard hrank haux
    rw [SHOT.unboundedRetry_eq_branch2 env bounds hguard hrank]
    refine ⟨rfl, ?_⟩
    dsimp only
    rw [SHOT.restoreDualUnbounded_notTouched env.allVariables _ _ haux,
      SHOT.updateVariableBound_eval, if_pos rfl]

/-- Witness for the amended C7: concrete nonlinear-objective environment
with no dual-unbounded problem variables — after the retry the auxiliary
objective variable (column 0) keeps the tightened bounds and the re-solve's
status is returned. -/
theorem C7_amended_restore_misses_auxiliary_witness :
    (SHOT.MIPSolverCbc_unboundedRetry
        ⟨SHOT.E_ObjectiveFunctionClassification.Nonlinear, false, [], 0,
          SHOT.E_ProblemSolutionStatus.Optimal⟩
        SHOT.E_ProblemSolutionStatus.Unbounded (fun _ => (0, 0))).1
      = SHOT.E_ProblemSolutionStatus.Optimal
      ∧ (SHOT.MIPSolverCbc_unboundedRetry
          ⟨SHOT.E_ObjectiveFunctionClassification.Nonlinear, false, [], 0,
            SHOT.E_ProblemSolutionStatus.Optimal⟩
          SHOT.E_ProblemSolutionStatus.Unbounded (fun _ => (0, 0))).2.1 0
        = (-(SHOT.getUnboundedVariableBoundValue / SHOT.literal10e30),
            SHOT.getUnboundedVariableBoundValue / SHOT.literal10e30) :=
  (C7_amended_restore_misses_auxiliary
      ⟨SHOT.E_ObjectiveFunctionClassification.Nonlinear, false, [], 0,
        SHOT.E_ProblemSolutionStatus.Optimal⟩ (fun _ => (0, 0))).2
    (by decide) (by decide) (by intro V hV; cases hV)

/-- C8: in `addLazyConstraint`, the objective-linearization cut pass
(`taskSelectHPPtsByObjectiveLinesearch->run`) is invoked exactly when the
reformulated objective's classification is strictly above `Quadratic`; a
purely linear or quadratic objective never invokes it, for either cut
strategy. -/
theorem C8_objective_linesearch_iff_above_quadratic (env : SHOT.CallbackEnv)
    (waiting : List SHOT.Hyperplane) (candidatePoints : List SHOT.SolutionPoint) :
    SHOT.CBAction.selectHPPtsByObjectiveLinesearch candidatePoints
        ∈ (SHOT.GurobiCallback_addLazyConstraint env waiting candidatePoints).1
      ↔ SHOT.E_ObjectiveFunctionClassification.Quadratic.rank < env.classification.rank := by
  constructor
  · intro hmem
    by_cases hrank : SHOT.E_ObjectiveFunctionClassification.Quadratic.rank
        < env.classification.rank
    · exact hrank
    · exfalso
      cases hs : env.strategy <;>
        simp [SHOT.GurobiCallback_addLazyConstraint, hs, hrank] at hmem
  · intro hrank
    cases hs : env.strategy <;>
      simp [SHOT.GurobiCallback_addLazyConstraint, hs, hrank]

/-- Witness for C8: with a nonlinear objective under the ECP strategy, the
objective-linesearch pass appears in the trace. -/
theorem C8_objective_linesearch_witness :
    SHOT.CBAction.selectHPPtsByObjectiveLinesearch []
      ∈ (SHOT.GurobiCallback_addLazyConstraint
          ⟨SHOT.ES_HyperplaneCutStrategy.ECP,
            SHOT.E_ObjectiveFunctionClassification.Nonlinear,
            fun _ => [], fun _ => []⟩ [] []).1 :=
  (C8_objective_linesearch_iff_above_quadratic _ _ _).mpr (by decide)

/-- C9: on a maximization problem (`isMinimization = false`) the incumbent
re-injection block never executes — its guard compares the primal bound
with itself — so the action trace consists of the cutoff update only (no
`setSolution` call) and `lastUpdatedPrimal` is unchanged. -/
theorem C9_maximization_never_reinjects_incumbent (lastUpdatedPrimal primalBound : ℚ)
    (primalSolutionStored : List ℚ) (hasAuxObjectiveVariable : Bool) (cutOffTol : ℚ) :
    (SHOT.GurobiCallback_mipsolIncumbentBlock false lastUpdatedPrimal primalBound
        primalSolutionStored hasAuxObjectiveVariable cutOffTol).1
      = [SHOT.CBAction.setCutoff (-primalBound - cutOffTol)]
      ∧ (SHOT.GurobiCallback_mipsolIncumbentBlock false lastUpdatedPrimal primalBound
          primalSolutionStored hasAuxObjectiveVariable cutOffTol).2 = lastUpdatedPrimal := by
  simp [SHOT.GurobiCallback_mipsolIncumbentBlock, lt_irrefl]

/-- C10 counterexample: `addVariable` only clamps the lower bound from
below and the upper bound from above; a caller-supplied lower bound of
`2e50` is stored unchanged, outside the interval
`[-getUnboundedVariableBoundValue(), getUnboundedVariableBoundValue()]`. -/
theorem C10_counterexample_lower_bound_outside_interval :
    (SHOT.MIPSolverCbc_addVariable SHOT.initialCbcState "x" SHOT.E_VariableType.Real
        (2 * 10 ^ 50) (3 * 10 ^ 50)).variableLowerBounds = [2 * 10 ^ 50]
      ∧ ¬((2 * 10 ^ 50 : ℚ) ≤ SHOT.getUnboundedVariableBoundValue) := by
  constructor
  · norm_num [SHOT.MIPSolverCbc_addVariable, SHOT.initialCbcState,
      SHOT.getUnboundedVariableBoundValue]
  · norm_num [SHOT.getUnboundedVariableBoundValue]

namespace SHOT

theorem addVariable_bounds_invariant (st : CbcState) (name : String)
    (ty : E_VariableType) (lb ub : ℚ)
    (hL : ∀ l ∈ st.variableLowerBounds, -getUnboundedVariableBoundValue ≤ l)
    (hU : ∀ u ∈ st.variableUpperBounds, u ≤ getUnboundedVariableBoundValue) :
    (∀ l ∈ (MIPSolverCbc_addVariable st name ty lb ub).variableLowerBounds,
        -getUnboundedVariableBoundValue ≤ l)
      ∧ (∀ u ∈ (MIPSolverCbc_addVariable st name ty lb ub).variableUpperBounds,
          u ≤ getUnboundedVariableBoundValue) := by
  constructor
  · intro l hl
    simp only [MIPSolverCbc_addVariable, List.mem_append, List.mem_singleton] at hl
    rcases hl with h | h
    · exact hL l h
    · subst h
      split_ifs with hc
      · exact le_refl _
      · exact le_of_not_lt hc
  · intro u hu
    simp only [MIPSolverCbc_addVariable, List.mem_append, List.mem_singleton] at hu
    rcases hu with h | h
    · exact hU u h
    · subst h
      split_ifs with hc
      · exact le_refl _
      · exact le_of_not_lt hc

theorem addVariables_bounds_invariant (calls : List (String × E_VariableType × ℚ × ℚ))
    (st : CbcState)
    (hL : ∀ l ∈ st.variableLowerBounds, -getUnboundedVariableBoundValue ≤ l)
    (hU : ∀ u ∈ st.variableUpperBounds, u ≤ getUnboundedVariableBoundValue) :
    (∀ l ∈ (MIPSolverCbc_addVariables st calls).variableLowerBounds,
        -getUnboundedVariableBoundValue ≤ l)
      ∧ (∀ u ∈ (MIPSolverCbc_addVariables st calls).variableUpperBounds,
          u ≤ getUnboundedVariableBoundValue) := by
  induction calls generalizing st with
  | nil => exact ⟨hL, hU⟩
  | cons c cs ih =>
    have h := addVariable_bounds_invariant st c.1 c.2.1 c.2.2.1 c.2.2.2 hL hU
    have h2 := ih (MIPSolverCbc_addVariable st c.1 c.2.1 c.2.2.1 c.2.2.2) h.1 h.2
    simpa [MIPSolverCbc_addVariables] using h2

end SHOT

/-- C10 amended: `addVariable` clamps one-sidedly — the lower bound is
raised to `-1e50` when below it and the upper bound lowered to `1e50` when
above it — so after any sequence of `addVariable` calls every entry of
`variableLowerBounds` is at least `-1e50` and every entry of
`variableUpperBounds` is at most `1e50`; a lower bound above `1e50` (or an
upper bound below `-1e50`) is stored unclamped. -/
theorem C10_amended_one_sided_clamping
    (calls : List (String × SHOT.E_VariableType × ℚ × ℚ)) :
    (∀ l ∈ (SHOT.MIPSolverCbc_addVariables SHOT.initialCbcState calls).variableLowerBounds,
        -SHOT.getUnboundedVariableBoundValue ≤ l)
      ∧ (∀ u ∈ (SHOT.MIPSolverCbc_addVariables SHOT.initialCbcState calls).variableUpperBounds,
          u ≤ SHOT.getUnboundedVariableBoundValue) :=
  SHOT.addVariables_bounds_invariant calls SHOT.initialCbcState
    (by intro l hl; cases hl) (by intro u hu; cases hu)

/-- Witness for the amended C10: in a one-variable model with bounds
`(5, 7)` the stored lower bound `5` is at least `-1e50`. -/
theorem C10_amended_one_sided_clamping_witness :
    -SHOT.getUnboundedVariableBoundValue ≤ (5 : ℚ) :=
  (C10_amended_one_sided_clamping [("x", SHOT.E_VariableType.Real, 5, 7)]).1 5
    (by norm_num [SHOT.MIPSolverCbc_addVariables, SHOT.MIPSolverCbc_addVariable,
      SHOT.initialCbcState, SHOT.getUnboundedVariableBoundValue])
